import Mathlib

/-!
Shallow embedding of the templated `Grid` class from
src/full_code/c12_code/10_FriendFunctionTemplates/Grid.h.

The C++ class stores a column-major table
`std::vector<std::vector<std::optional<T>>> mCells` together with the
dimensions `mWidth` and `mHeight`; column x, row y is `mCells[x][y]`.
We model the table as `List (List (Option T))`, `size_t` as `Nat`, and the
`std::out_of_range` exception thrown by `verifyCoordinate` as an
`Except GridError` result.
-/

/-- Models the single exception kind the class can throw:
`std::out_of_range` raised by `verifyCoordinate`. -/
inductive GridError where
  | outOfRange
deriving DecidableEq, Repr

/-- The state of a `Grid<T>` object: the cell table and the two dimension
members, exactly the three data members of the C++ class. -/
structure Grid (T : Type) where
  mCells : List (List (Option T))
  mWidth : Nat
  mHeight : Nat
deriving DecidableEq, Repr

/-- Models `Grid<T>::kDefaultWidth = 10`. -/
def kDefaultWidth : Nat := 10

/-- Models `Grid<T>::kDefaultHeight = 10`. -/
def kDefaultHeight : Nat := 10

namespace Grid

/-- Models the constructor `Grid<T>::Grid(size_t width, size_t height)`:
it stores the dimensions and resizes `mCells` to `width` default-constructed
columns of `height` default-constructed (hence disengaged) `optional<T>`
cells each. -/
def make (T : Type) (width height : Nat) : Grid T :=
  { mCells := List.replicate width (List.replicate height (none : Option T))
    mWidth := width
    mHeight := height }

/-- Models calling the constructor with no arguments, which uses the default
arguments `kDefaultWidth` and `kDefaultHeight`. -/
def makeDefault (T : Type) : Grid T :=
  make T kDefaultWidth kDefaultHeight

/-- Models the accessor `getWidth() const`. -/
def getWidth (g : Grid T) : Nat := g.mWidth

/-- Models the accessor `getHeight() const`. -/
def getHeight (g : Grid T) : Nat := g.mHeight

/-- Models `Grid<T>::verifyCoordinate(size_t x, size_t y) const`: throws
`std::out_of_range` when `x >= mWidth || y >= mHeight`, otherwise returns
normally. -/
def verifyCoordinate (g : Grid T) (x y : Nat) : Except GridError Unit :=
  if g.mWidth ≤ x ∨ g.mHeight ≤ y then Except.error GridError.outOfRange
  else Except.ok ()

/-- The raw unchecked table read `mCells[x][y]` used by the class internals;
`List.getD` stands for `std::vector::operator[]`, which the C++ code only
applies at indices that are in range for a well-formed grid. -/
def cellAt (g : Grid T) (x y : Nat) : Option T :=
  (g.mCells.getD x []).getD y none

/-- Models the read-only overload
`const std::optional<T>& Grid<T>::at(size_t x, size_t y) const`: it calls
`verifyCoordinate(x, y)` and then returns a reference to `mCells[x][y]`;
we model the returned reference by the cell value it designates. -/
def atRead (g : Grid T) (x y : Nat) : Except GridError (Option T) :=
  match g.verifyCoordinate x y with
  | Except.error e => Except.error e
  | Except.ok _ => Except.ok (g.cellAt x y)

/-- The raw unchecked table write `mCells[x][y] = v`, expressed with
`List.set` on the column-major table. -/
def setCell (g : Grid T) (x y : Nat) (v : Option T) : Grid T :=
  { g with mCells := g.mCells.set x ((g.mCells.getD x []).set y v) }

/-- Models an assignment through the mutable overload
`std::optional<T>& Grid<T>::at(size_t x, size_t y)`. The C++ overload
obtains the cell reference by delegating to the const overload through
`std::as_const` and `const_cast`, so the bounds check and the addressed
cell are those of `atRead`; writing `v` through the returned reference
updates exactly that cell. -/
def atWrite (g : Grid T) (x y : Nat) (v : Option T) : Except GridError (Grid T) :=
  match g.atRead x y with
  | Except.error e => Except.error e
  | Except.ok _ => Except.ok (g.setCell x y v)

/-- Models the defaulted copy constructor `Grid(const Grid&) = default`:
member-wise copy, which deep-copies the nested `std::vector` table, so the
copy is the same value with independently owned storage. -/
def copy (g : Grid T) : Grid T :=
  { mCells := g.mCells, mWidth := g.mWidth, mHeight := g.mHeight }

/-- Models the state of the source object after the defaulted move
constructor `Grid(Grid&&) = default` has run: the member-wise move leaves
the source `std::vector` empty (guaranteed for vector move construction),
while the scalar members `mWidth` and `mHeight` are merely copied and so
keep their values in the source. -/
def movedFrom (g : Grid T) : Grid T :=
  { mCells := [], mWidth := g.mWidth, mHeight := g.mHeight }

/-- The class invariant stated by the spec: the table has exactly `mWidth`
columns and every column has exactly `mHeight` rows. -/
def WF (g : Grid T) : Prop :=
  g.mCells.length = g.mWidth ∧ ∀ col ∈ g.mCells, col.length = g.mHeight

instance (g : Grid T) [DecidableEq T] : Decidable (WF g) := by
  unfold WF; infer_instance

/-- The per-cell combination performed inside the loop body of the friend
`operator+`: when both operand cells are engaged the result cell receives
the sum of their values, otherwise the body leaves the (disengaged) result
cell alone. -/
def combineCell [Add T] (lhs rhs : Grid T) (x y : Nat) : Option T :=
  match lhs.cellAt x y, rhs.cellAt x y with
  | some a, some b => some (a + b)
  | _, _ => none

/-- The body of the inner `for (x ...)` loop of `operator+` at row `y`:
reads `lhs.mCells[x][y]` and `rhs.mCells[x][y]` and, when both are engaged,
assigns their sum through `result.at(x, y)`. -/
def addStep [Add T] (lhs rhs : Grid T) (y : Nat) (acc : Grid T) (x : Nat) :
    Except GridError (Grid T) :=
  match lhs.cellAt x y, rhs.cellAt x y with
  | some a, some b => acc.atWrite x y (some (a + b))
  | _, _ => Except.ok acc

/-- Models the friend `Grid<T> operator+(const Grid<T>&, const Grid<T>&)`:
builds `result(minWidth, minHeight)` and runs the two nested loops
`for (y < minHeight) for (x < minWidth)`, each iteration being `addStep`;
a thrown `std::out_of_range` would propagate as an `Except.error`. -/
def addE [Add T] (lhs rhs : Grid T) : Except GridError (Grid T) :=
  let minWidth := min lhs.getWidth rhs.getWidth
  let minHeight := min lhs.getHeight rhs.getHeight
  (List.range minHeight).foldlM
    (fun acc y => (List.range minWidth).foldlM (addStep lhs rhs y) acc)
    (make T minWidth minHeight)

/-- The grid returned by `operator+` in the (always-taken, as proved below)
non-throwing case. -/
def add [Add T] (lhs rhs : Grid T) : Grid T :=
  match addE lhs rhs with
  | Except.ok g => g
  | Except.error _ => make T 0 0

end Grid

/-- Concrete 3×3 grid with every cell present with value 1, the left operand
of the combination test in the spec (grid A). -/
def sampleA : Grid Int :=
  { mCells := [[some 1, some 1, some 1], [some 1, some 1, some 1], [some 1, some 1, some 1]]
    mWidth := 3
    mHeight := 3 }

/-- Concrete 2×4 grid with every cell present with value 2, the right operand
of the combination test in the spec (grid B). -/
def sampleB : Grid Int :=
  { mCells := [[some 2, some 2, some 2, some 2], [some 2, some 2, some 2, some 2]]
    mWidth := 2
    mHeight := 4 }

/-- Variant of `sampleB` that differs only at coordinate (1, 3), which lies
outside the 2×3 overlap region of `sampleB` with `sampleA`. -/
def sampleBmod : Grid Int :=
  sampleB.setCell 1 3 (some 99)

namespace Grid

/-! Basic lemmas about list indexing used throughout. -/

theorem getD_set_self (l : List α) (i : Nat) (v d : α) (h : i < l.length) :
    (l.set i v).getD i d = v := by
  rw [List.getD_eq_getElem?_getD, List.getElem?_set_self h]
  rfl

theorem getD_set_ne (l : List α) (i j : Nat) (v d : α) (h : i ≠ j) :
    (l.set i v).getD j d = l.getD j d := by
  rw [List.getD_eq_getElem?_getD, List.getElem?_set_ne h, ← List.getD_eq_getElem?_getD]

theorem getD_replicate_eval (n i : Nat) (v d : α) :
    (List.replicate n v).getD i d = if i < n then v else d := by
  rw [List.getD_eq_getElem?_getD, List.getElem?_replicate]
  split <;> rfl

/-! Lemmas about the constructor. -/

theorem make_mWidth (T : Type) (w h : Nat) : (make T w h).mWidth = w := rfl

theorem make_mHeight (T : Type) (w h : Nat) : (make T w h).mHeight = h := rfl

theorem make_WF (T : Type) (w h : Nat) : (make T w h).WF := by
  constructor
  · simp [make]
  · intro col hcol
    have hcol' := List.eq_of_mem_replicate hcol
    subst hcol'
    simp [make]

theorem make_cellAt (T : Type) (w h x y : Nat) : (make T w h).cellAt x y = none := by
  unfold cellAt make
  dsimp only
  rw [getD_replicate_eval]
  split
  · rw [getD_replicate_eval]
    split <;> rfl
  · rfl

/-! Lemmas about the raw cell update. -/

theorem setCell_mWidth (g : Grid T) (x y : Nat) (v : Option T) :
    (g.setCell x y v).mWidth = g.mWidth := rfl

theorem setCell_mHeight (g : Grid T) (x y : Nat) (v : Option T) :
    (g.setCell x y v).mHeight = g.mHeight := rfl

theorem getD_col_length (g : Grid T) (hWF : g.WF) (x : Nat) (hx : x < g.mWidth) :
    (g.mCells.getD x []).length = g.mHeight := by
  have hx' : x < g.mCells.length := by rw [hWF.1]; exact hx
  have hmem : g.mCells.getD x [] ∈ g.mCells := by
    rw [List.getD_eq_getElem?_getD, List.getElem?_eq_getElem hx']
    exact List.getElem_mem hx'
  exact hWF.2 _ hmem

theorem cellAt_setCell_ne (g : Grid T) (x y x' y' : Nat) (v : Option T)
    (h : ¬(x' = x ∧ y' = y)) :
    (g.setCell x y v).cellAt x' y' = g.cellAt x' y' := by
  unfold cellAt setCell
  dsimp only
  by_cases hx : x = x'
  · subst hx
    have hy : y ≠ y' := by
      intro hc
      exact h ⟨rfl, hc.symm⟩
    by_cases hlen : x < g.mCells.length
    · rw [getD_set_self _ _ _ _ hlen, getD_set_ne _ _ _ _ _ hy]
    · rw [List.set_eq_of_length_le (Nat.le_of_not_lt hlen)]
  · rw [getD_set_ne _ _ _ _ _ hx]

theorem cellAt_setCell (g : Grid T) (hWF : g.WF) (x y : Nat)
    (hx : x < g.mWidth) (hy : y < g.mHeight) (v : Option T) (x' y' : Nat) :
    (g.setCell x y v).cellAt x' y' =
      if x' = x ∧ y' = y then v else g.cellAt x' y' := by
  by_cases hc : x' = x ∧ y' = y
  · obtain ⟨h1, h2⟩ := hc
    subst h1; subst h2
    rw [if_pos ⟨rfl, rfl⟩]
    unfold cellAt setCell
    dsimp only
    have hx' : x' < g.mCells.length := by rw [hWF.1]; exact hx
    rw [getD_set_self _ _ _ _ hx']
    apply getD_set_self
    rw [getD_col_length g hWF x' hx]
    exact hy
  · rw [if_neg hc]
    exact cellAt_setCell_ne g x y x' y' v hc

theorem WF_setCell (g : Grid T) (hWF : g.WF) (x y : Nat) (v : Option T)
    (hx : x < g.mWidth) (_hy : y < g.mHeight) : (g.setCell x y v).WF := by
  obtain ⟨hlen, hcols⟩ := hWF
  constructor
  · simpa [setCell] using hlen
  · intro col hcol
    rcases List.mem_or_eq_of_mem_set hcol with hmem | heq
    · exact hcols col hmem
    · subst heq
      rw [List.length_set]
      exact getD_col_length g ⟨hlen, hcols⟩ x hx

/-! Lemmas about the bounds check and the two `at` overloads. -/

theorem verifyCoordinate_ok (g : Grid T) (x y : Nat)
    (hx : x < g.mWidth) (hy : y < g.mHeight) :
    g.verifyCoordinate x y = Except.ok () := by
  have hc : ¬(g.mWidth ≤ x ∨ g.mHeight ≤ y) := by
    push_neg
    exact ⟨hx, hy⟩
  rw [verifyCoordinate, if_neg hc]

theorem verifyCoordinate_error (g : Grid T) (x y : Nat)
    (h : g.mWidth ≤ x ∨ g.mHeight ≤ y) :
    g.verifyCoordinate x y = Except.error GridError.outOfRange := by
  rw [verifyCoordinate, if_pos h]

theorem atRead_ok (g : Grid T) (x y : Nat) (hx : x < g.mWidth) (hy : y < g.mHeight) :
    g.atRead x y = Except.ok (g.cellAt x y) := by
  rw [atRead, verifyCoordinate_ok g x y hx hy]

theorem atRead_error (g : Grid T) (x y : Nat) (h : g.mWidth ≤ x ∨ g.mHeight ≤ y) :
    g.atRead x y = Except.error GridError.outOfRange := by
  rw [atRead, verifyCoordinate_error g x y h]

theorem atRead_error_iff (g : Grid T) (x y : Nat) :
    (∃ e, g.atRead x y = Except.error e) ↔ g.mWidth ≤ x ∨ g.mHeight ≤ y := by
  constructor
  · rintro ⟨e, he⟩
    by_contra hc
    push_neg at hc
    rw [atRead_ok g x y hc.1 hc.2] at he
    exact Except.noConfusion he
  · intro h
    exact ⟨_, atRead_error g x y h⟩

theorem atWrite_ok (g : Grid T) (x y : Nat) (v : Option T)
    (hx : x < g.mWidth) (hy : y < g.mHeight) :
    g.atWrite x y v = Except.ok (g.setCell x y v) := by
  rw [atWrite, atRead_ok g x y hx hy]

theorem atWrite_error (g : Grid T) (x y : Nat) (v : Option T)
    (h : g.mWidth ≤ x ∨ g.mHeight ≤ y) :
    g.atWrite x y v = Except.error GridError.outOfRange := by
  rw [atWrite, atRead_error g x y h]

theorem atWrite_ok_inv (g : Grid T) (x y : Nat) (v : Option T) (g' : Grid T)
    (h : g.atWrite x y v = Except.ok g') :
    x < g.mWidth ∧ y < g.mHeight ∧ g' = g.setCell x y v := by
  by_cases hb : g.mWidth ≤ x ∨ g.mHeight ≤ y
  · rw [atWrite_error g x y v hb] at h
    exact Except.noConfusion h
  · push_neg at hb
    rw [atWrite_ok g x y v hb.1 hb.2] at h
    injection h with h'
    exact ⟨hb.1, hb.2, h'.symm⟩

theorem atWrite_error_iff (g : Grid T) (x y : Nat) (v : Option T) :
    (∃ e, g.atWrite x y v = Except.error e) ↔ g.mWidth ≤ x ∨ g.mHeight ≤ y := by
  constructor
  · rintro ⟨e, he⟩
    by_contra hc
    push_neg at hc
    rw [atWrite_ok g x y v hc.1 hc.2] at he
    exact Except.noConfusion he
  · intro h
    exact ⟨_, atWrite_error g x y v h⟩

/-! Extensional description of grids through `cellAt`. -/

theorem cellAt_eq_getElem (g : Grid T) (x y : Nat) (hx : x < g.mCells.length)
    (hy : y < g.mCells[x].length) :
    g.cellAt x y = g.mCells[x][y] := by
  unfold cellAt
  have h1 : g.mCells.getD x [] = g.mCells[x] := by
    rw [List.getD_eq_getElem?_getD, List.getElem?_eq_getElem hx]
    rfl
  rw [h1, List.getD_eq_getElem?_getD, List.getElem?_eq_getElem hy]
  rfl

theorem eq_of_cellAt_eq (a b : Grid T) (hw : a.mWidth = b.mWidth)
    (hh : a.mHeight = b.mHeight) (ha : a.WF) (hb : b.WF)
    (hcell : ∀ x y, a.cellAt x y = b.cellAt x y) : a = b := by
  have hc : a.mCells = b.mCells := by
    apply List.ext_getElem
    · rw [ha.1, hb.1, hw]
    · intro n h1 h2
      apply List.ext_getElem
      · have m1 : a.mCells[n] ∈ a.mCells := List.getElem_mem h1
        have m2 : b.mCells[n] ∈ b.mCells := List.getElem_mem h2
        rw [ha.2 _ m1, hb.2 _ m2, hh]
      · intro m hm1 hm2
        exact (cellAt_eq_getElem a n m h1 hm1).symm.trans
          ((hcell n m).trans (cellAt_eq_getElem b n m h2 hm2))
  cases a
  cases b
  cases hc
  cases hw
  cases hh
  rfl

/-! Characterization of the nested loops of `operator+`. -/

theorem exceptOkBind (a : α) (f : α → Except ε β) : (Except.ok a >>= f) = f a := rfl

theorem addStep_eq_combine [Add T] (lhs rhs : Grid T) (y : Nat) (acc : Grid T) (x : Nat) :
    addStep lhs rhs y acc x =
      match combineCell lhs rhs x y with
      | some c => acc.atWrite x y (some c)
      | none => Except.ok acc := by
  unfold addStep combineCell
  rcases lhs.cellAt x y with _ | a <;> rcases rhs.cellAt x y with _ | b <;> rfl

theorem addInner_spec [Add T] (lhs rhs : Grid T) (y : Nat) :
    ∀ (w : Nat) (acc : Grid T), acc.WF → w ≤ acc.mWidth → y < acc.mHeight →
    (∀ x', acc.cellAt x' y = none) →
    ∃ g, (List.range w).foldlM (addStep lhs rhs y) acc = Except.ok g ∧
      g.mWidth = acc.mWidth ∧ g.mHeight = acc.mHeight ∧ g.WF ∧
      ∀ x' y', g.cellAt x' y' =
        if x' < w ∧ y' = y then combineCell lhs rhs x' y' else acc.cellAt x' y' := by
  intro w
  induction w with
  | zero =>
    intro acc hWF _hw _hy _hrow
    refine ⟨acc, by simp only [List.range_zero, List.foldlM_nil]; rfl, rfl, rfl, hWF, ?_⟩
    intro x' y'
    rw [if_neg]
    rintro ⟨hx', _⟩
    exact absurd hx' (Nat.not_lt_zero x')
  | succ w ih =>
    intro acc hWF hw hy hrow
    obtain ⟨g, hg, hgw, hgh, hgWF, hgcell⟩ :=
      ih acc hWF (Nat.le_of_succ_le hw) hy hrow
    rw [List.range_succ, List.foldlM_append, hg]
    have hwlt : w < g.mWidth := by rw [hgw]; exact hw
    have hylt : y < g.mHeight := by rw [hgh]; exact hy
    have hstep := addStep_eq_combine lhs rhs y g w
    rcases hcc : combineCell lhs rhs w y with _ | c
    · refine ⟨g, ?_, hgw, hgh, hgWF, ?_⟩
      · rw [hcc] at hstep
        simp only [List.foldlM_cons, List.foldlM_nil, exceptOkBind, hstep]
        rfl
      · intro x' y'
        rw [hgcell x' y']
        by_cases hc : x' < w + 1 ∧ y' = y
        · obtain ⟨h1, h2⟩ := hc
          subst h2
          by_cases hx : x' < w
          · rw [if_pos ⟨hx, rfl⟩, if_pos ⟨Nat.lt_succ_of_lt hx, rfl⟩]
          · have hxw : x' = w := by omega
            subst hxw
            rw [if_neg (by omega), if_pos ⟨h1, rfl⟩, hrow, hcc]
        · rw [if_neg hc, if_neg]
          rintro ⟨h1, h2⟩
          exact hc ⟨Nat.lt_succ_of_lt h1, h2⟩
    · refine ⟨g.setCell w y (some c), ?_, ?_, ?_,
        WF_setCell g hgWF w y (some c) hwlt hylt, ?_⟩
      · rw [hcc] at hstep
        simp only [List.foldlM_cons, List.foldlM_nil, exceptOkBind, hstep,
          atWrite_ok g w y (some c) hwlt hylt]
        rfl
      · rw [setCell_mWidth]; exact hgw
      · rw [setCell_mHeight]; exact hgh
      · intro x' y'
        rw [cellAt_setCell g hgWF w y hwlt hylt (some c) x' y', hgcell x' y']
        by_cases hc : x' = w ∧ y' = y
        · obtain ⟨h1, h2⟩ := hc
          subst h1; subst h2
          rw [if_pos ⟨rfl, rfl⟩, if_pos ⟨Nat.lt_succ_self x', rfl⟩, hcc]
        · rw [if_neg hc]
          by_cases hc2 : x' < w + 1 ∧ y' = y
          · obtain ⟨h1, h2⟩ := hc2
            subst h2
            have hxe : x' ≠ w := fun hh => hc ⟨hh, rfl⟩
            have hx : x' < w := by omega
            rw [if_pos ⟨hx, rfl⟩, if_pos ⟨Nat.lt_succ_of_lt hx, rfl⟩]
          · rw [if_neg hc2, if_neg]
            rintro ⟨h1, h2⟩
            exact hc2 ⟨Nat.lt_succ_of_lt h1, h2⟩

theorem addOuter_spec [Add T] (lhs rhs : Grid T) (W H : Nat) :
    ∀ (k : Nat), k ≤ H →
    ∃ g, (List.range k).foldlM
        (fun acc y => (List.range W).foldlM (addStep lhs rhs y) acc)
        (make T W H) = Except.ok g ∧
      g.mWidth = W ∧ g.mHeight = H ∧ g.WF ∧
      ∀ x' y', g.cellAt x' y' =
        if x' < W ∧ y' < k then combineCell lhs rhs x' y' else none := by
  intro k
  induction k with
  | zero =>
    intro _hk
    refine ⟨make T W H, by simp only [List.range_zero, List.foldlM_nil]; rfl,
      rfl, rfl, make_WF T W H, ?_⟩
    intro x' y'
    rw [make_cellAt, if_neg]
    rintro ⟨_, hy'⟩
    exact absurd hy' (Nat.not_lt_zero y')
  | succ k ih =>
    intro hk
    obtain ⟨g, hg, hgw, hgh, hgWF, hgcell⟩ := ih (Nat.le_of_succ_le hk)
    rw [List.range_succ, List.foldlM_append, hg]
    have hrow : ∀ x', g.cellAt x' k = none := by
      intro x'
      rw [hgcell x' k, if_neg]
      rintro ⟨_, hkk⟩
      exact absurd hkk (Nat.lt_irrefl k)
    obtain ⟨g2, hg2, hg2w, hg2h, hg2WF, hg2cell⟩ :=
      addInner_spec lhs rhs k W g hgWF (Nat.le_of_eq hgw.symm)
        (by rw [hgh]; exact hk) hrow
    refine ⟨g2, ?_, by rw [hg2w]; exact hgw, by rw [hg2h]; exact hgh, hg2WF, ?_⟩
    · simp only [List.foldlM_cons, List.foldlM_nil, exceptOkBind, hg2]
      rfl
    · intro x' y'
      rw [hg2cell x' y', hgcell x' y']
      by_cases hc : x' < W ∧ y' = k
      · obtain ⟨h1, h2⟩ := hc
        subst h2
        rw [if_pos ⟨h1, rfl⟩, if_pos ⟨h1, Nat.lt_succ_self y'⟩]
      · rw [if_neg hc]
        by_cases hc2 : x' < W ∧ y' < k
        · rw [if_pos hc2, if_pos ⟨hc2.1, Nat.lt_succ_of_lt hc2.2⟩]
        · rw [if_neg hc2, if_neg]
          rintro ⟨h1, h2⟩
          have hyk : y' ≠ k := fun hh => hc ⟨h1, hh⟩
          exact hc2 ⟨h1, by omega⟩

theorem addE_spec [Add T] (lhs rhs : Grid T) :
    ∃ r, lhs.addE rhs = Except.ok r ∧
      r.mWidth = min lhs.mWidth rhs.mWidth ∧
      r.mHeight = min lhs.mHeight rhs.mHeight ∧ r.WF ∧
      ∀ x y, r.cellAt x y =
        if x < min lhs.mWidth rhs.mWidth ∧ y < min lhs.mHeight rhs.mHeight
        then combineCell lhs rhs x y else none := by
  have h := addOuter_spec lhs rhs (min lhs.mWidth rhs.mWidth)
    (min lhs.mHeight rhs.mHeight) (min lhs.mHeight rhs.mHeight) (Nat.le_refl _)
  obtain ⟨r, hr, hrw, hrh, hrWF, hrcell⟩ := h
  exact ⟨r, hr, hrw, hrh, hrWF, hrcell⟩

theorem addE_eq_ok [Add T] (lhs rhs : Grid T) :
    lhs.addE rhs = Except.ok (lhs.add rhs) := by
  obtain ⟨r, hr, -, -, -, -⟩ := addE_spec lhs rhs
  rw [add, hr]

theorem add_mWidth [Add T] (lhs rhs : Grid T) :
    (lhs.add rhs).mWidth = min lhs.mWidth rhs.mWidth := by
  obtain ⟨r, hr, hrw, -, -, -⟩ := addE_spec lhs rhs
  rw [add, hr]
  exact hrw

theorem add_mHeight [Add T] (lhs rhs : Grid T) :
    (lhs.add rhs).mHeight = min lhs.mHeight rhs.mHeight := by
  obtain ⟨r, hr, -, hrh, -, -⟩ := addE_spec lhs rhs
  rw [add, hr]
  exact hrh

theorem add_WF [Add T] (lhs rhs : Grid T) : (lhs.add rhs).WF := by
  obtain ⟨r, hr, -, -, hrWF, -⟩ := addE_spec lhs rhs
  rw [add, hr]
  exact hrWF

theorem add_cellAt [Add T] (lhs rhs : Grid T) (x y : Nat) :
    (lhs.add rhs).cellAt x y =
      if x < min lhs.mWidth rhs.mWidth ∧ y < min lhs.mHeight rhs.mHeight
      then combineCell lhs rhs x y else none := by
  obtain ⟨r, hr, -, -, -, hrcell⟩ := addE_spec lhs rhs
  rw [add, hr]
  exact hrcell x y

/-- Claim C1: for every two grids A and B over the same element type, A + B
is a new grid of dimensions minWidth × minHeight with minWidth =
min(A.width, B.width) and minHeight = min(B.height, A.height); for every
in-bounds (x, y) the result cell is present with value A[x,y] + B[x,y] when
both operand cells are present and absent when either is absent, and
differing operand dimensions raise no error. -/
theorem add_overlap_correct {T : Type} [Add T] (A B : Grid T) :
    (A.add B).mWidth = min A.mWidth B.mWidth ∧
    (A.add B).mHeight = min B.mHeight A.mHeight ∧
    (∀ x y, x < min A.mWidth B.mWidth → y < min B.mHeight A.mHeight →
      (∀ a b, A.cellAt x y = some a → B.cellAt x y = some b →
        (A.add B).cellAt x y = some (a + b)) ∧
      ((A.cellAt x y = none ∨ B.cellAt x y = none) →
        (A.add B).cellAt x y = none)) ∧
    A.addE B = Except.ok (A.add B) := by
  refine ⟨add_mWidth A B, ?_, ?_, addE_eq_ok A B⟩
  · rw [add_mHeight A B, Nat.min_comm]
  · intro x y hx hy
    rw [Nat.min_comm B.mHeight A.mHeight] at hy
    constructor
    · intro a b ha hb
      rw [add_cellAt A B x y, if_pos ⟨hx, hy⟩]
      simp [combineCell, ha, hb]
    · intro hab
      rw [add_cellAt A B x y, if_pos ⟨hx, hy⟩]
      rcases hab with ha | hb
      · simp [combineCell, ha]
      · rcases hA : A.cellAt x y with _ | a2 <;> simp [combineCell, hA, hb]

/-- Claim C1 witness: the spec's combination-truncation fixture, 3×3 of 1
plus 2×4 of 2, gives a 2×3 grid of 3. -/
theorem add_overlap_correct_witness :
    (sampleA.add sampleB).mWidth = 2 ∧ (sampleA.add sampleB).mHeight = 3 ∧
    (sampleA.add sampleB).cellAt 1 2 = some 3 := by
  have h := add_overlap_correct sampleA sampleB
  refine ⟨?_, ?_, ?_⟩
  · rw [h.1]
    decide
  · rw [h.2.1]
    decide
  · have h3 := (h.2.2.1 1 2 (by decide) (by decide)).1 1 2 (by decide) (by decide)
    rw [h3]
    decide

/-- Claim C2: at(x, y) raises the out-of-range error iff x ≥ width or
y ≥ height; on success it returns the unique cell at (x, y); a failing call
produces no updated grid, so the grid state is unchanged on failure. -/
theorem at_bounds_check {T : Type} (g : Grid T) (x y : Nat) :
    ((∃ e, g.atRead x y = Except.error e) ↔ g.mWidth ≤ x ∨ g.mHeight ≤ y) ∧
    (x < g.mWidth → y < g.mHeight → g.atRead x y = Except.ok (g.cellAt x y)) ∧
    (∀ v, g.mWidth ≤ x ∨ g.mHeight ≤ y →
      g.atWrite x y v = Except.error GridError.outOfRange) := by
  refine ⟨atRead_error_iff g x y, ?_, ?_⟩
  · intro hx hy
    exact atRead_ok g x y hx hy
  · intro v h
    exact atWrite_error g x y v h

/-- Claim C2 witness: on a 2×2 grid, (1,1) succeeds and (2,0) fails. -/
theorem at_bounds_check_witness :
    (make Int 2 2).atRead 1 1 = Except.ok ((make Int 2 2).cellAt 1 1) ∧
    (make Int 2 2).atWrite 2 0 none = Except.error GridError.outOfRange := by
  have h1 := (at_bounds_check (make Int 2 2) 1 1).2.1 (by decide) (by decide)
  have h2 := (at_bounds_check (make Int 2 2) 2 0).2.2 none (by decide)
  exact ⟨h1, h2⟩

/-- Claim C3: Grid(w, h) succeeds for every non-negative w and h, yields
getWidth() = w, getHeight() = h and all cells absent; with w = 0 or h = 0
every at call fails; the no-argument constructor yields a 10 × 10 grid of
absent cells. -/
theorem construct_absent (T : Type) :
    (∀ w h, (make T w h).getWidth = w ∧ (make T w h).getHeight = h ∧
      ∀ x y, (make T w h).cellAt x y = none) ∧
    (∀ w h x y, w = 0 ∨ h = 0 →
      (make T w h).atRead x y = Except.error GridError.outOfRange) ∧
    (makeDefault T).getWidth = 10 ∧ (makeDefault T).getHeight = 10 ∧
    (∀ x y, (makeDefault T).cellAt x y = none) := by
  refine ⟨?_, ?_, rfl, rfl, ?_⟩
  · intro w h
    exact ⟨rfl, rfl, fun x y => make_cellAt T w h x y⟩
  · intro w h x y hz
    apply atRead_error
    rcases hz with h0 | h0
    · left
      rw [make_mWidth, h0]
      exact Nat.zero_le x
    · right
      rw [make_mHeight, h0]
      exact Nat.zero_le y
  · intro x y
    exact make_cellAt T kDefaultWidth kDefaultHeight x y

/-- Claim C3 witness: a 0×5 grid rejects every access and a 4×4 grid starts
with absent cells. -/
theorem construct_absent_witness :
    (make Int 0 5).atRead 3 1 = Except.error GridError.outOfRange ∧
    (make Int 4 4).cellAt 2 2 = none := by
  have h := construct_absent Int
  exact ⟨h.2.1 0 5 3 1 (Or.inl rfl), (h.1 4 4).2.2 2 2⟩

/-- Claim C4: after assigning v through at(x, y) at an in-bounds coordinate,
a subsequent at(x, y) yields a present cell whose value equals v. -/
theorem write_then_read {T : Type} (g : Grid T) (hWF : g.WF) (x y : Nat) (v : T)
    (hx : x < g.mWidth) (hy : y < g.mHeight) :
    ∃ g', g.atWrite x y (some v) = Except.ok g' ∧
      g'.atRead x y = Except.ok (some v) := by
  refine ⟨g.setCell x y (some v), atWrite_ok g x y (some v) hx hy, ?_⟩
  have hx' : x < (g.setCell x y (some v)).mWidth := by rw [setCell_mWidth]; exact hx
  have hy' : y < (g.setCell x y (some v)).mHeight := by rw [setCell_mHeight]; exact hy
  rw [atRead_ok _ x y hx' hy', cellAt_setCell g hWF x y hx hy (some v) x y,
    if_pos ⟨rfl, rfl⟩]

/-- Claim C4 witness: writing 7 at (0, 1) of a 2×2 grid reads back as 7. -/
theorem write_then_read_witness :
    (make Int 2 2).WF ∧
    ∃ g', (make Int 2 2).atWrite 0 1 (some 7) = Except.ok g' ∧
      g'.atRead 0 1 = Except.ok (some 7) :=
  ⟨by decide, write_then_read (make Int 2 2) (by decide) 0 1 7 (by decide) (by decide)⟩

/-- Claim C5 counterexample: the 1×1 grid satisfies the invariant, but its
moved-from state keeps width 1 and height 1 with an empty cell table, so the
source of a move does not satisfy the width × height table invariant. -/
theorem move_source_invariant_cex :
    (make Int 1 1).WF ∧ (make Int 1 1).movedFrom.mWidth = 1 ∧
    (make Int 1 1).movedFrom.mHeight = 1 ∧ ¬ (make Int 1 1).movedFrom.WF := by
  decide

/-- Claim C5 (amended): construction, checked writes through at, operator+
and copies preserve the width × height table invariant and leave the
dimensions unchanged; the source of a defaulted move, however, keeps its
dimensions while its table becomes empty, so the moved-from source satisfies
the invariant exactly when its width is zero. -/
theorem invariant_preserved_amended (T : Type) [Add T] :
    (∀ w h, (make T w h).WF) ∧
    (∀ (g : Grid T) x y v g', g.WF → g.atWrite x y v = Except.ok g' →
      g'.WF ∧ g'.mWidth = g.mWidth ∧ g'.mHeight = g.mHeight) ∧
    (∀ A B : Grid T, (A.add B).WF) ∧
    (∀ g : Grid T, g.copy = g) ∧
    (∀ g : Grid T, g.movedFrom.mWidth = g.mWidth ∧
      g.movedFrom.mHeight = g.mHeight ∧ (g.movedFrom.WF ↔ g.mWidth = 0)) := by
  refine ⟨make_WF T, ?_, add_WF, fun g => rfl, ?_⟩
  · intro g x y v g' hWF hok
    obtain ⟨hx, hy, hg'⟩ := atWrite_ok_inv g x y v g' hok
    subst hg'
    exact ⟨WF_setCell g hWF x y v hx hy, rfl, rfl⟩
  · intro g
    refine ⟨rfl, rfl, ?_⟩
    constructor
    · rintro ⟨h1, -⟩
      simpa [movedFrom] using h1.symm
    · intro h0
      exact ⟨by simp [movedFrom, h0], fun col hc => absurd hc (List.not_mem_nil col)⟩

/-- Claim C5 amended-theorem witness: a checked write on a 2×2 grid keeps
the invariant and the dimensions. -/
theorem invariant_preserved_amended_witness :
    ((make Int 2 2).setCell 0 0 (some 3)).WF ∧
    ((make Int 2 2).setCell 0 0 (some 3)).mWidth = (make Int 2 2).mWidth ∧
    ((make Int 2 2).setCell 0 0 (some 3)).mHeight = (make Int 2 2).mHeight :=
  (invariant_preserved_amended Int).2.1 (make Int 2 2) 0 0 (some 3)
    ((make Int 2 2).setCell 0 0 (some 3)) (by decide) rfl

/-- Claim C6: the only failing operation is at with its single out-of-range
error: operator+ never raises (its internal writes always succeed),
construction and copying never raise, and getWidth/getHeight always return
the construction-time dimensions with no side effects. -/
theorem only_at_can_fail (T : Type) [Add T] :
    (∀ A B : Grid T, A.addE B = Except.ok (A.add B)) ∧
    (∀ w h, (make T w h).getWidth = w ∧ (make T w h).getHeight = h) ∧
    (∀ (g : Grid T) x y v g', g.atWrite x y v = Except.ok g' →
      g'.getWidth = g.getWidth ∧ g'.getHeight = g.getHeight) ∧
    (∀ g : Grid T, g.copy.getWidth = g.getWidth ∧
      g.copy.getHeight = g.getHeight) := by
  refine ⟨addE_eq_ok, fun w h => ⟨rfl, rfl⟩, ?_, fun g => ⟨rfl, rfl⟩⟩
  intro g x y v g' hok
  obtain ⟨-, -, hg'⟩ := atWrite_ok_inv g x y v g' hok
  subst hg'
  exact ⟨rfl, rfl⟩

/-- Claim C6 witness: adding the sample grids raises no error, and a
successful write preserves getWidth. -/
theorem only_at_can_fail_witness :
    sampleA.addE sampleB = Except.ok (sampleA.add sampleB) ∧
    ((make Int 2 2).setCell 1 0 (some 5)).getWidth = (make Int 2 2).getWidth :=
  ⟨(only_at_can_fail Int).1 sampleA sampleB,
   ((only_at_can_fail Int).2.2.1 (make Int 2 2) 1 0 (some 5)
      ((make Int 2 2).setCell 1 0 (some 5)) rfl).1⟩

/-- Claim C7: copying a grid duplicates the whole table as an equal,
independently owned value, and a mutation through at changes only the
written cell, so mutating the copy leaves every cell of the original
unchanged and vice versa. -/
theorem copy_independence {T : Type} (A : Grid T) :
    A.copy = A ∧
    ∀ x y v B, A.atWrite x y v = Except.ok B →
      ∀ x' y', ¬(x' = x ∧ y' = y) → B.cellAt x' y' = A.cellAt x' y' := by
  refine ⟨rfl, ?_⟩
  intro x y v B hok x' y' hne
  obtain ⟨-, -, hB⟩ := atWrite_ok_inv A x y v B hok
  subst hB
  exact cellAt_setCell_ne A x y x' y' v hne

/-- Claim C7 witness: writing 9 at (0, 0) of the 3×3 sample leaves cell
(1, 1) unchanged. -/
theorem copy_independence_witness :
    sampleA.copy = sampleA ∧
    (sampleA.setCell 0 0 (some 9)).cellAt 1 1 = sampleA.cellAt 1 1 :=
  ⟨(copy_independence sampleA).1,
   (copy_independence sampleA).2 0 0 (some 9) (sampleA.setCell 0 0 (some 9))
      rfl 1 1 (by decide)⟩

/-- Claim C8: the mutable and read-only at overloads fail for exactly the
same coordinates with the same error, and a successful mutable access writes
exactly the cell the read-only overload designates: reading (x, y) after the
write returns the written value and every other cell is untouched. -/
theorem at_overloads_agree {T : Type} (g : Grid T) (x y : Nat) (v : Option T) :
    ((∃ e, g.atWrite x y v = Except.error e) ↔
      (∃ e, g.atRead x y = Except.error e)) ∧
    (∀ e, g.atWrite x y v = Except.error e → g.atRead x y = Except.error e) ∧
    (g.WF → ∀ g', g.atWrite x y v = Except.ok g' →
      g'.atRead x y = Except.ok v ∧
      ∀ x' y', ¬(x' = x ∧ y' = y) → g'.cellAt x' y' = g.cellAt x' y') := by
  refine ⟨(atWrite_error_iff g x y v).trans (atRead_error_iff g x y).symm, ?_, ?_⟩
  · intro e he
    have hb : g.mWidth ≤ x ∨ g.mHeight ≤ y := (atWrite_error_iff g x y v).mp ⟨e, he⟩
    cases e
    exact atRead_error g x y hb
  · intro hWF g' hok
    obtain ⟨hx, hy, hg'⟩ := atWrite_ok_inv g x y v g' hok
    subst hg'
    constructor
    · have hx' : x < (g.setCell x y v).mWidth := by rw [setCell_mWidth]; exact hx
      have hy' : y < (g.setCell x y v).mHeight := by rw [setCell_mHeight]; exact hy
      rw [atRead_ok _ x y hx' hy', cellAt_setCell g hWF x y hx hy v x y,
        if_pos ⟨rfl, rfl⟩]
    · intro x' y' hne
      exact cellAt_setCell_ne g x y x' y' v hne

/-- Claim C8 witness: after a mutable write of 4 at (0, 1) of a 2×2 grid, the
read-only overload at (0, 1) returns 4. -/
theorem at_overloads_agree_witness :
    ((make Int 2 2).setCell 0 1 (some 4)).atRead 0 1 = Except.ok (some 4) :=
  (((at_overloads_agree (make Int 2 2) 0 1 (some 4)).2.2 (by decide)
      ((make Int 2 2).setCell 0 1 (some 4)) rfl).1)

/-- Claim C9: when T's addition is commutative, grid addition is
commutative: A + B and B + A have equal dimensions and equal cell contents
at every coordinate. -/
theorem add_comm_of_comm {T : Type} [Add T]
    (hcomm : ∀ a b : T, a + b = b + a) (A B : Grid T) :
    (A.add B).mWidth = (B.add A).mWidth ∧
    (A.add B).mHeight = (B.add A).mHeight ∧
    ∀ x y, (A.add B).cellAt x y = (B.add A).cellAt x y := by
  refine ⟨?_, ?_, ?_⟩
  · rw [add_mWidth, add_mWidth, Nat.min_comm]
  · rw [add_mHeight, add_mHeight, Nat.min_comm]
  · intro x y
    rw [add_cellAt, add_cellAt, Nat.min_comm B.mWidth A.mWidth,
      Nat.min_comm B.mHeight A.mHeight]
    by_cases hc : x < min A.mWidth B.mWidth ∧ y < min A.mHeight B.mHeight
    · rw [if_pos hc, if_pos hc]
      unfold combineCell
      rcases A.cellAt x y with _ | a <;> rcases B.cellAt x y with _ | b
      · rfl
      · rfl
      · rfl
      · show some (a + b) = some (b + a)
        rw [hcomm a b]
    · rw [if_neg hc, if_neg hc]

/-- Claim C9 witness: integer grids commute at cell (0, 0) of the samples. -/
theorem add_comm_of_comm_witness :
    (sampleA.add sampleB).cellAt 0 0 = (sampleB.add sampleA).cellAt 0 0 :=
  (add_comm_of_comm Int.add_comm sampleA sampleB).2.2 0 0

/-- Claim C10: the result of A + B depends only on the operands' dimensions
and their cells inside the overlap region: replacing the operands by grids
of equal dimensions that agree on the overlap leaves the result grid
identical. -/
theorem add_depends_only_on_overlap {T : Type} [Add T] (A A' B B' : Grid T)
    (hAw : A.mWidth = A'.mWidth) (hAh : A.mHeight = A'.mHeight)
    (hBw : B.mWidth = B'.mWidth) (hBh : B.mHeight = B'.mHeight)
    (hAcell : ∀ x y, x < min A.mWidth B.mWidth → y < min A.mHeight B.mHeight →
      A.cellAt x y = A'.cellAt x y)
    (hBcell : ∀ x y, x < min A.mWidth B.mWidth → y < min A.mHeight B.mHeight →
      B.cellAt x y = B'.cellAt x y) :
    A.add B = A'.add B' := by
  apply eq_of_cellAt_eq
  · rw [add_mWidth, add_mWidth, hAw, hBw]
  · rw [add_mHeight, add_mHeight, hAh, hBh]
  · exact add_WF A B
  · exact add_WF A' B'
  · intro x y
    rw [add_cellAt, add_cellAt, ← hAw, ← hAh, ← hBw, ← hBh]
    by_cases hc : x < min A.mWidth B.mWidth ∧ y < min A.mHeight B.mHeight
    · rw [if_pos hc, if_pos hc]
      unfold combineCell
      rw [hAcell x y hc.1 hc.2, hBcell x y hc.1 hc.2]
    · rw [if_neg hc, if_neg hc]

/-- Claim C10 witness: changing sampleB at (1, 3), outside its 2×3 overlap
with sampleA, leaves the sum with sampleA identical. -/
theorem add_depends_only_on_overlap_witness :
    sampleB.add sampleA = sampleBmod.add sampleA := by
  apply add_depends_only_on_overlap sampleB sampleBmod sampleA sampleA rfl rfl rfl rfl
  · intro x y hx hy
    have hy3 : y < 3 := hy
    exact (cellAt_setCell_ne sampleB 1 3 x y (some 99) (by omega)).symm
  · intro x y _ _
    rfl

end Grid
